import Mathlib

/-!
Shallow embedding of `src/acme/lets_encrypt.rs` from the pingap repository:
the automated certificate-lifecycle manager (ACME / Lets Encrypt renewal).

External collaborators (the issuer, the key-value storage backend, the
configuration subsystem, the certificate parser) are modelled as oracles
supplied in environment records; the control flow, branch structure, error
categories and event ordering of the Rust source are translated directly.
-/

namespace Pingap

/-- Order status of the external `instant_acme` crate
(`instant_acme::OrderStatus`). -/
inductive OrderStatus
  | Pending
  | Ready
  | Processing
  | Valid
  | Invalid
deriving DecidableEq, Repr

/-- Authorization status of the external `instant_acme` crate
(`instant_acme::AuthorizationStatus`). -/
inductive AuthorizationStatus
  | Pending
  | Valid
  | Invalid
  | Deactivated
  | Expired
  | Revoked
deriving DecidableEq, Repr

/-- Challenge type of the external `instant_acme` crate. -/
inductive ChallengeType
  | Http01
  | Dns01
  | TlsAlpn01
deriving DecidableEq, Repr

/-- Modelled from the spec: the error taxonomy of the acme module
(`super::Error`, defined outside this file): `NotFound` (missing
certificate, storage or challenge type), `Fail` (category + message) and
wrapped protocol or CSR library errors carrying a step category
(`Instant`, `Rcgen`). -/
inductive AcmeError
  | NotFound (message : String)
  | Fail (category message : String)
  | Instant (category message : String)
  | Rcgen (category message : String)
deriving DecidableEq, Repr

/-- The statuses on which the order-finalization polling loop of
`new_lets_encrypt` breaks:
`if let OrderStatus::Ready | OrderStatus::Invalid | OrderStatus::Valid`. -/
def isPollTerminal : OrderStatus → Bool
  | .Ready => true
  | .Invalid => true
  | .Valid => true
  | _ => false

deriving instance DecidableEq for Except

/-- Observable outcome of one run of the order-finalization polling loop:
the value the loop produces (final status, or the error returned out of the
enclosing function), the sequence of backoff sleep delays actually waited
(in milliseconds, in order), and how many times the order state was
inspected. -/
structure PollOut where
  result : Except AcmeError OrderStatus
  sleeps : List Nat
  checks : Nat
deriving DecidableEq, Repr

/-- The order-finalization polling loop of `new_lets_encrypt`
(src/acme/lets_encrypt.rs lines 389-423), translated statement by
statement.  `status i` is the order status observed at the i-th inspection
(the state after i refreshes), `refreshErr i` the outcome of the i-th
`order.refresh()` call (`none` = success).  Initial call uses `i = 0`,
`tries = 1`, `delay = 250`, mirroring `let mut tries = 1u8; let mut delay =
Duration::from_millis(250)`.  Each non-terminal iteration refreshes, then
doubles the delay, then increments `tries`; when `tries < 10` fails the
loop returns the `retry_too_many` failure, otherwise it sleeps the doubled
delay and repeats. -/
def pollGo (status : Nat → OrderStatus) (refreshErr : Nat → Option String)
    (detail : String) (i tries delay : Nat) : PollOut :=
  let st := status i
  if isPollTerminal st then
    ⟨.ok st, [], 1⟩
  else
    match refreshErr i with
    | some e => ⟨.error (.Instant "refresh_order" e), [], 1⟩
    | none =>
      let delay2 := delay * 2
      let tries2 := tries + 1
      if tries2 < 10 then
        let out := pollGo status refreshErr detail (i + 1) tries2 delay2
        ⟨out.result, delay2 :: out.sleeps, out.checks + 1⟩
      else
        ⟨.error (.Fail "retry_too_many"
            ("order is not ready, detail url: " ++ detail)), [], 1⟩
termination_by 10 - tries
decreasing_by omega

/-! ## Renewal decision and sweep (`do_update_certificates`) -/

/-- Model of `crate::certificate::Certificate` as consumed here: the domain
list embedded in the certificate and the verdict of its own validity check
`Certificate::valid()` (parsing and expiry are implemented outside this
file, so the verdict is an oracle field). -/
structure Certificate where
  valid : Bool
  domains : List String
deriving DecidableEq, Repr

/-- The sorting applied to a domain list before comparison
(`Vec::sort` on `Vec<String>`): sorting under the total lexicographic
string order. -/
def sortDomains (l : List String) : List String :=
  List.insertionSort (· ≤ ·) l

/-- The domain-change check of `do_update_certificates` (lines 93-99):
clone both lists, sort both, compare (`sorted_domains != cert_domains`). -/
def domainsChanged (domains certDomains : List String) : Bool :=
  decide (sortDomains domains ≠ sortDomains certDomains)

/-- The renewal decision of `do_update_certificates` (lines 90-111):
if the stored certificate is obtained, renew when its own validity check
fails or when the domain lists differ after sorting; if obtaining it
fails, log and renew.  `getCert` is the outcome of
`get_lets_encrypt_certificate` for each name. -/
def should_renew (getCert : String → Except AcmeError Certificate)
    (name : String) (domains : List String) : Bool :=
  match getCert name with
  | .ok certificate => (!certificate.valid) || domainsChanged domains certificate.domains
  | .error _ => true

/-- The per-target loop of `do_update_certificates` (lines 89-132): each
target is evaluated with `should_renew`; when renewal is needed,
`renew_certificate` is invoked and its error, if any, is logged and
swallowed (`if let Err(e) = ... { error!(...) }`).  Returns the renewal
attempts in order as (name, outcome of `renew_certificate`). -/
def sweep (getCert : String → Except AcmeError Certificate)
    (renewErr : String → List String → Option AcmeError) :
    List (String × List String) → List (String × Option AcmeError)
  | [] => []
  | (name, domains) :: rest =>
    if should_renew getCert name domains then
      (name, renewErr name domains) :: sweep getCert renewErr rest
    else
      sweep getCert renewErr rest

/-- `do_update_certificates` (lines 80-134).  The error type of the
returned `Result<bool, ServiceError>` is modelled as `String`; the body
never constructs it: a non-qualifying tick returns `Ok(false)` and a
qualifying tick runs the sweep and returns `Ok(true)`.  The second
component is the trace of renewal attempts of the sweep. -/
def do_update_certificates (getCert : String → Except AcmeError Certificate)
    (renewErr : String → List String → Option AcmeError)
    (count : Nat) (params : List (String × List String)) :
    Except String Bool × List (String × Option AcmeError) :=
  if count % 10 ≠ 0 then (.ok false, [])
  else (.ok true, sweep getCert renewErr params)

/-! ## Config integration (`update_certificate_lets_encrypt`) -/

/-- Model of `crate::config::CertificateConf` as mutated here: the two PEM
fields written after issuance, plus one opaque field standing for every
other field of the entry. -/
structure CertificateConf where
  tls_cert : Option String
  tls_key : Option String
  rest : String
deriving DecidableEq, Repr

/-- Model of `crate::config::PingapConf` as touched here: the certificate
map (as an association list, names unique in practice) plus one opaque
field standing for every other section of the configuration. -/
structure PingapConf where
  certificates : List (String × CertificateConf)
  rest : String
deriving DecidableEq, Repr

/-- Lines 59-62: `if let Some(cert) = conf.certificates.get_mut(name)`
followed by the two field writes.  The entry with the given name, if
present, gets `tls_cert`/`tls_key` replaced; every other entry is
untouched; no entry is created when the name is absent. -/
def setCertificate (certs : List (String × CertificateConf))
    (name pem key : String) : List (String × CertificateConf) :=
  certs.map fun e =>
    if e.1 = name then
      (e.1, { e.2 with tls_cert := some pem, tls_key := some key })
    else e

/-- Environment of one `update_certificate_lets_encrypt` call: the outcome
of `new_lets_encrypt` and of the external `load_config`/`save_config`
calls. -/
structure UpdateEnv where
  newCert : Except AcmeError (String × String)
  loadResult : Except String PingapConf
  saveErr : Option String
deriving Repr

/-- `update_certificate_lets_encrypt` (lines 45-71), branch by branch:
propagate a `new_lets_encrypt` failure; wrap a `load_config` failure with
category "load_config"; mutate the named entry; wrap a `save_config`
failure with the category string the source actually uses at line 66
(which is "load_config", not a save-specific tag); return the updated
configuration. -/
def update_certificate_lets_encrypt (env : UpdateEnv) (name : String) :
    Except AcmeError PingapConf :=
  match env.newCert with
  | .error e => .error e
  | .ok (pem, key) =>
    match env.loadResult with
    | .error e => .error (.Fail "load_config" e)
    | .ok conf =>
      let conf2 : PingapConf :=
        { conf with certificates := setCertificate conf.certificates name pem key }
      match env.saveErr with
      | some e => .error (.Fail "load_config" e)
      | none => .ok conf2

/-! ## Challenge responder (`handle_lets_encrypt`) -/

/-- The well-known challenge path head of line 38, as a character list
(the embedding works on `List Char` so that path splitting is the plain
list `drop`; the source string is ASCII, where the byte indexing of
`substring` coincides with character indexing). -/
def WELL_KNOWN_PATH_PREFIX : List Char :=
  "/.well-known/acme-challenge/".toList

/-- Modelled from the spec: `get_token_path` lives in the acme module
outside this file; the spec says only that the storage path is a pure
function of the token, so it is modelled as prepending a fixed directory. -/
def get_token_path (token : List Char) : List Char :=
  "acme/".toList ++ token

/-- Observable outcome of one `handle_lets_encrypt` call: the
`pingora::Result<bool>` (an `Err` is the internal error built by
`util::new_internal_error`, modelled from the spec as status plus
message), the response sent on the session if any (status, body), and the
storage paths looked up, in order. -/
structure HandleOut where
  result : Except (Nat × String) Bool
  response : Option (Nat × String)
  lookups : List (List Char)
deriving DecidableEq, Repr

/-- `handle_lets_encrypt` (lines 211-251).  `storage` is
`get_config_storage()` (`none` when unavailable); a present storage is its
`load` function on paths.  A path under the well-known head has its token
suffix extracted (`substring(WELL_KNOWN_PATH_PREFIX.len(), path.len())`),
the stored value is loaded at the token-derived path and returned verbatim
as a 200 response with `Ok(true)`; a missing storage or failed load
surfaces a 500 internal error; any other path returns `Ok(false)`
untouched. -/
def handle_lets_encrypt
    (storage : Option (List Char → Except String String))
    (path : List Char) : HandleOut :=
  if WELL_KNOWN_PATH_PREFIX.isPrefixOf path then
    let token := path.drop WELL_KNOWN_PATH_PREFIX.length
    match storage with
    | none => ⟨.error (500, "get config storage fail"), none, []⟩
    | some load =>
      match load (get_token_path token) with
      | .error e => ⟨.error (500, e), none, [get_token_path token]⟩
      | .ok value => ⟨.ok true, some (200, value), [get_token_path token]⟩
  else ⟨.ok false, none, []⟩

/-! ## ACME orchestration (`new_lets_encrypt`) -/

/-- Model of `instant_acme::Challenge` as consumed here. -/
structure Challenge where
  type : ChallengeType
  token : String
  url : String
deriving DecidableEq, Repr

/-- Model of `instant_acme::Authorization` as consumed here; `identifier`
is the payload of the irrefutable `Identifier::Dns(identifier)` pattern. -/
structure Authorization where
  status : AuthorizationStatus
  identifier : String
  challenges : List Challenge
deriving DecidableEq, Repr

/-- Outcome of a phase of `new_lets_encrypt`: a value, an early-returned
error, or the `todo!()` panic of the unhandled authorization-status
branch (line 344). -/
inductive AcmeOutcome (α : Type)
  | ok (a : α)
  | err (e : AcmeError)
  | todoPanic
deriving DecidableEq, Repr

/-- Externally observable events of one `new_lets_encrypt` run, in order:
a challenge token saved to storage (with the key-authorization value), the
ready-signal sent to the issuer for a challenge url, and one inspection of
the order state by the finalization polling loop. -/
inductive AcmeEvent
  | saveToken (path : List Char) (value : String)
  | setReady (url : String)
  | statusCheck
deriving DecidableEq, Repr

/-- Whether an event is a token save. -/
def AcmeEvent.isSave : AcmeEvent → Bool
  | .saveToken _ _ => true
  | _ => false

/-- Whether an event is a challenge ready-signal. -/
def AcmeEvent.isReady : AcmeEvent → Bool
  | .setReady _ => true
  | _ => false

/-- Whether an event is an order-state inspection of the polling loop. -/
def AcmeEvent.isPoll : AcmeEvent → Bool
  | .statusCheck => true
  | _ => false

/-- Environment of one `new_lets_encrypt` run: outcomes of each external
interaction, in the order the source performs them.  `keyAuth` is the pure
`order.key_authorization(challenge)` computation of the ACME library;
`saveErr` the storage save outcome per path; `setReadyErr` the issuer
ready-signal outcome per challenge url; `status`/`refreshErr` drive the
finalization polling loop as in `pollGo`. -/
structure AcmeEnv where
  createAccountErr : Option String
  newOrderErr : Option String
  initialStatus : OrderStatus
  authzErr : Option String
  authorizations : List Authorization
  storageAvailable : Bool
  keyAuth : String → String
  saveErr : List Char → Option String
  setReadyErr : String → Option String
  status : Nat → OrderStatus
  refreshErr : Nat → Option String

/-- The authorization loop of `new_lets_encrypt` (lines 335-376): a
`Pending` authorization must expose an Http01 challenge (else `NotFound`);
its key-authorization is saved to storage at the token-derived path (a
failure is wrapped with category "save_token") and the
(identifier, challenge-url) pair is recorded; a `Valid` authorization is
skipped (`continue`); any other status hits the `todo!()` branch.  Returns
the events of the loop and the recorded challenge pairs. -/
def authLoop (env : AcmeEnv) : List Authorization →
    List AcmeEvent × AcmeOutcome (List (String × String))
  | [] => ([], .ok [])
  | authz :: rest =>
    match authz.status with
    | .Pending =>
      match authz.challenges.find? (fun c => c.type == ChallengeType.Http01) with
      | none => ([], .err (.NotFound "Http01 challenge not found"))
      | some challenge =>
        match env.saveErr (get_token_path challenge.token.data) with
        | some e => ([], .err (.Fail "save_token" e))
        | none =>
          let next := authLoop env rest
          (.saveToken (get_token_path challenge.token.data)
              (env.keyAuth challenge.token) :: next.1,
            match next.2 with
            | .ok chs => .ok ((authz.identifier, challenge.url) :: chs)
            | .err e => .err e
            | .todoPanic => .todoPanic)
    | .Valid => authLoop env rest
    | _ => ([], .todoPanic)

/-- The readiness loop of `new_lets_encrypt` (lines 378-386): for every
recorded challenge, in order, signal the issuer that it is ready; a
failure is wrapped with category "set_challenge_ready" and returned.
Returns the ready-signal events and the error, if any. -/
def readyLoop (env : AcmeEnv) : List (String × String) →
    List AcmeEvent × Option AcmeError
  | [] => ([], none)
  | ch :: rest =>
    match env.setReadyErr ch.2 with
    | some e => ([], some (.Instant "set_challenge_ready" e))
    | none =>
      let next := readyLoop env rest
      (.setReady ch.2 :: next.1, next.2)

/-- `new_lets_encrypt` (lines 266-429) through the order polling phase:
account creation, order creation, the order-must-be-`Pending`
precondition, authorization enumeration, the storage presence check, the
authorization loop, the readiness loop, the finalization polling loop
(`pollGo` from initial tries 1 and delay 250) and the terminal `Invalid`
check.  The phases after it (CSR generation, finalize, certificate
download) interact only with the key-generation library and the issuer
and produce none of the events traced here; they are not modelled.  The
domain sorting of lines 270-272 feeds only the order-creation call, whose
outcome is the `newOrderErr` oracle.  Returns the event trace and the
outcome (final order status and recorded challenge pairs). -/
def new_lets_encrypt (env : AcmeEnv) :
    List AcmeEvent × AcmeOutcome (OrderStatus × List (String × String)) :=
  match env.createAccountErr with
  | some e => ([], .err (.Instant "create_account" e))
  | none =>
    match env.newOrderErr with
    | some e => ([], .err (.Instant "new_order" e))
    | none =>
      if env.initialStatus = .Pending then
        match env.authzErr with
        | some e => ([], .err (.Instant "authorizations" e))
        | none =>
          if env.storageAvailable then
            let prepared := authLoop env env.authorizations
            match prepared.2 with
            | .err e => (prepared.1, .err e)
            | .todoPanic => (prepared.1, .todoPanic)
            | .ok challenges =>
              let readied := readyLoop env challenges
              match readied.2 with
              | some e => (prepared.1 ++ readied.1, .err e)
              | none =>
                let polled := pollGo env.status env.refreshErr "" 0 1 250
                let evs := prepared.1 ++ readied.1
                    ++ List.replicate polled.checks .statusCheck
                match polled.result with
                | .error e => (evs, .err e)
                | .ok st =>
                  if st = .Invalid then
                    (evs, .err (.Fail "order_invalid" "order is invalid"))
                  else (evs, .ok (st, challenges))
          else ([], .err (.NotFound "storage not found"))
      else ([], .err (.Fail "order_status" "order is not pending"))

/-- A concrete all-success environment, used to evaluate the orchestration
model at specific authorization lists. -/
def probeEnv (auths : List Authorization) : AcmeEnv :=
  { createAccountErr := none
    newOrderErr := none
    initialStatus := .Pending
    authzErr := none
    authorizations := auths
    storageAvailable := true
    keyAuth := fun token => token ++ ".keyauth"
    saveErr := fun _ => none
    setReadyErr := fun _ => none
    status := fun _ => .Ready
    refreshErr := fun _ => none }

/-- A concrete pending authorization exposing an Http01 challenge. -/
def pendingAuth : Authorization :=
  ⟨.Pending, "a.example", [⟨.Http01, "tok1", "https-challenge-url-1"⟩]⟩

/-- A concrete authorization in the issuer-side `Invalid` state, which the
source leaves to the `todo!()` branch. -/
def invalidAuth : Authorization :=
  ⟨.Invalid, "b.example", [⟨.Http01, "tok2", "https-challenge-url-2"⟩]⟩

/-! ## Lemmas on the finalization polling loop -/

section PollLemmas

variable (status : Nat → OrderStatus) (refreshErr : Nat → Option String)
    (detail : String)

/-- Unfolding of `pollGo` at a terminal order status. -/
theorem pollGo_terminal {i : Nat} (tries delay : Nat)
    (h : isPollTerminal (status i) = true) :
    pollGo status refreshErr detail i tries delay = ⟨.ok (status i), [], 1⟩ := by
  rw [pollGo.eq_def]
  simp [h]

/-- Unfolding of `pollGo` at a failing refresh. -/
theorem pollGo_refresh_err {i : Nat} (tries delay : Nat) {e : String}
    (h1 : isPollTerminal (status i) = false) (h2 : refreshErr i = some e) :
    pollGo status refreshErr detail i tries delay
      = ⟨.error (.Instant "refresh_order" e), [], 1⟩ := by
  rw [pollGo.eq_def]
  simp [h1, h2]

/-- Unfolding of `pollGo` at a non-terminal status with a successful
refresh and retry budget left: double the delay, sleep it, iterate. -/
theorem pollGo_step {i tries : Nat} (delay : Nat)
    (h1 : isPollTerminal (status i) = false) (h2 : refreshErr i = none)
    (h3 : tries + 1 < 10) :
    pollGo status refreshErr detail i tries delay
      = ⟨(pollGo status refreshErr detail (i + 1) (tries + 1) (delay * 2)).result,
          delay * 2
            :: (pollGo status refreshErr detail (i + 1) (tries + 1) (delay * 2)).sleeps,
          (pollGo status refreshErr detail (i + 1) (tries + 1) (delay * 2)).checks + 1⟩ := by
  rw [pollGo.eq_def]
  simp [h1, h2, h3]

/-- Unfolding of `pollGo` at retry exhaustion: when the incremented `tries`
reaches 10 the loop returns the retry failure without sleeping again. -/
theorem pollGo_exhaust {i tries : Nat} (delay : Nat)
    (h1 : isPollTerminal (status i) = false) (h2 : refreshErr i = none)
    (h3 : ¬ tries + 1 < 10) :
    pollGo status refreshErr detail i tries delay
      = ⟨.error (.Fail "retry_too_many"
          ("order is not ready, detail url: " ++ detail)), [], 1⟩ := by
  rw [pollGo.eq_def]
  simp [h1, h2, h3]

/-- Closed form of the sleeps of any `pollGo` run: the j-th delay actually
waited is the entry delay multiplied by 2^(j+1) (the delay is doubled
before each wait). -/
theorem pollGo_sleeps_closed :
    ∀ (n i tries delay : Nat), 10 - tries ≤ n →
      ∀ j, j < (pollGo status refreshErr detail i tries delay).sleeps.length →
        (pollGo status refreshErr detail i tries delay).sleeps.getD j 0
          = delay * 2 ^ (j + 1) := by
  intro n
  induction n with
  | zero =>
      intro i tries delay hn j hj
      by_cases h1 : isPollTerminal (status i) = true
      · rw [pollGo_terminal status refreshErr detail tries delay h1] at hj
        simp at hj
      · simp only [Bool.not_eq_true] at h1
        cases hre : refreshErr i with
        | some e =>
            rw [pollGo_refresh_err status refreshErr detail tries delay h1 hre] at hj
            simp at hj
        | none =>
            have h3 : ¬ tries + 1 < 10 := by omega
            rw [pollGo_exhaust status refreshErr detail delay h1 hre h3] at hj
            simp at hj
  | succ n ih =>
      intro i tries delay hn j hj
      by_cases h1 : isPollTerminal (status i) = true
      · rw [pollGo_terminal status refreshErr detail tries delay h1] at hj
        simp at hj
      · simp only [Bool.not_eq_true] at h1
        cases hre : refreshErr i with
        | some e =>
            rw [pollGo_refresh_err status refreshErr detail tries delay h1 hre] at hj
            simp at hj
        | none =>
            by_cases h3 : tries + 1 < 10
            · rw [pollGo_step status refreshErr detail delay h1 hre h3] at hj ⊢
              cases j with
              | zero =>
                  simp only [List.getD_cons_zero]
                  ring
              | succ j =>
                  simp only [List.length_cons, Nat.succ_lt_succ_iff] at hj
                  simp only [List.getD_cons_succ]
                  rw [ih (i + 1) (tries + 1) (delay * 2) (by omega) j hj]
                  ring
            · rw [pollGo_exhaust status refreshErr detail delay h1 hre h3] at hj
              simp at hj

/-- Closed form of a `pollGo` run over an order that stays `Pending` with
succeeding refreshes: the loop runs its full retry budget and returns the
retry failure, having inspected the state `10 - tries` times. -/
theorem pollGo_pending
    (hs : ∀ k, status k = .Pending) (hr : ∀ k, refreshErr k = none) :
    ∀ (n i tries delay : Nat), 10 - tries ≤ n → 1 ≤ tries → tries ≤ 9 →
      pollGo status refreshErr detail i tries delay
        = ⟨.error (.Fail "retry_too_many"
              ("order is not ready, detail url: " ++ detail)),
            (List.range (9 - tries)).map (fun j => delay * 2 ^ (j + 1)),
            10 - tries⟩ := by
  intro n
  induction n with
  | zero => intro i tries delay hn h1 h9; omega
  | succ n ih =>
      intro i tries delay hn h1 h9
      have hterm : isPollTerminal (status i) = false := by
        rw [hs i]; rfl
      by_cases h3 : tries + 1 < 10
      · rw [pollGo_step status refreshErr detail delay hterm (hr i) h3,
          ih (i + 1) (tries + 1) (delay * 2) (by omega) (by omega) (by omega)]
        dsimp only
        have hchecks : 10 - (tries + 1) + 1 = 10 - tries := by omega
        have hk : 9 - tries = 9 - (tries + 1) + 1 := by omega
        rw [hchecks, hk, List.range_succ_eq_map, List.map_cons, List.map_map]
        congr 1
        norm_num
        intro a ha
        simp only [pow_succ]
        ring
      · rw [pollGo_exhaust status refreshErr detail delay hterm (hr i) h3]
        have h9e : tries = 9 := by omega
        subst h9e
        rfl

end PollLemmas

/-! ## Claim theorems -/

/-- C1 counterexample: a concrete execution of the finalization polling
loop in which the order stays `Pending` (never terminal) waits the delays
500, 1000, ..., 64000 ms; in particular the first delay actually waited is
not 250 ms, because the source doubles the delay before the first sleep. -/
theorem backoff_first_wait_is_500_not_250 :
    (pollGo (fun _ => OrderStatus.Pending) (fun _ => none) "" 0 1 250).sleeps
      = [500, 1000, 2000, 4000, 8000, 16000, 32000, 64000]
    ∧ (pollGo (fun _ => OrderStatus.Pending) (fun _ => none) "" 0 1 250).sleeps.head?
      ≠ some 250 := by
  constructor
  · simp [pollGo, isPollTerminal]
  · simp [pollGo, isPollTerminal]

/-- C1 (amended): in every execution of the finalization polling loop from
its initial state (tries = 1, delay = 250 ms), the sequence of backoff
sleep delays actually waited starts at 500 ms (the initial 250 ms is
doubled before the first wait) and strictly doubles on each successive
iteration: the j-th delay waited is 500 * 2^j ms. -/
theorem backoff_sleeps_start_at_500_and_double
    (status : Nat → OrderStatus) (refreshErr : Nat → Option String)
    (detail : String) :
    ∀ j, j < (pollGo status refreshErr detail 0 1 250).sleeps.length →
      (pollGo status refreshErr detail 0 1 250).sleeps.getD j 0 = 500 * 2 ^ j := by
  intro j hj
  rw [pollGo_sleeps_closed status refreshErr detail 9 0 1 250 (by omega) j hj,
    pow_succ]
  ring

/-- Witness for C1 (amended) at a concrete pending execution: the first
delay waited is 500 * 2^0 = 500 ms. -/
theorem backoff_sleeps_start_at_500_and_double_witness :
    (pollGo (fun _ => OrderStatus.Pending) (fun _ => none) "" 0 1 250).sleeps.getD 0 0
      = 500 * 2 ^ 0 :=
  backoff_sleeps_start_at_500_and_double (fun _ => OrderStatus.Pending)
    (fun _ => none) "" 0 (by simp [pollGo, isPollTerminal])

/-- Attempt bound and no-success for a pending order, whatever the refresh
outcomes: the loop inspects the state at most `10 - tries` more times and
can never produce a success, because the only success exit is a terminal
status. -/
theorem pollGo_pending_bound (status : Nat → OrderStatus)
    (refreshErr : Nat → Option String) (detail : String)
    (hs : ∀ k, status k = .Pending) :
    ∀ (n i tries delay : Nat), 10 - tries ≤ n → 1 ≤ tries → tries ≤ 9 →
      (pollGo status refreshErr detail i tries delay).checks ≤ 10 - tries
      ∧ ∀ st, (pollGo status refreshErr detail i tries delay).result ≠ .ok st := by
  intro n
  induction n with
  | zero => intro i tries delay hn h1 h9; omega
  | succ n ih =>
      intro i tries delay hn h1 h9
      have hterm : isPollTerminal (status i) = false := by
        rw [hs i]; rfl
      cases hre : refreshErr i
      case some e =>
        rw [pollGo_refresh_err status refreshErr detail tries delay hterm hre]
        refine ⟨?_, fun st h => by simp at h⟩
        show 1 ≤ 10 - tries
        omega
      case none =>
        by_cases h3 : tries + 1 < 10
        · rw [pollGo_step status refreshErr detail delay hterm hre h3]
          obtain ⟨hc, hr⟩ := ih (i + 1) (tries + 1) (delay * 2) (by omega)
            (by omega) (by omega)
          constructor
          · dsimp only
            omega
          · intro st
            exact hr st
        · rw [pollGo_exhaust status refreshErr detail delay hterm hre h3]
          refine ⟨?_, fun st h => by simp at h⟩
          show 1 ≤ 10 - tries
          omega

/-- C2: in every execution of the finalization polling loop (from tries =
1, delay = 250) in which the order status never leaves `Pending`, the loop
inspects the order state at most 10 times — never an 11th iteration — and
never returns a success; and whenever the refreshes succeed it inspects
the state exactly 9 times and returns the retry-exhaustion failure `Fail`
with category "retry_too_many". -/
theorem poll_pending_retry_exhaustion
    (status : Nat → OrderStatus) (detail : String)
    (hs : ∀ k, status k = .Pending) :
    (∀ refreshErr : Nat → Option String,
        (pollGo status refreshErr detail 0 1 250).checks ≤ 10
        ∧ ∀ st, (pollGo status refreshErr detail 0 1 250).result ≠ .ok st)
    ∧ (∀ refreshErr : Nat → Option String, (∀ k, refreshErr k = none) →
        (pollGo status refreshErr detail 0 1 250).result
          = .error (.Fail "retry_too_many"
              ("order is not ready, detail url: " ++ detail))
        ∧ (pollGo status refreshErr detail 0 1 250).checks = 9) := by
  constructor
  · intro refreshErr
    obtain ⟨hc, hr⟩ := pollGo_pending_bound status refreshErr detail hs 9 0 1 250
      (by omega) (by omega) (by omega)
    exact ⟨by omega, hr⟩
  · intro refreshErr hr
    rw [pollGo_pending status refreshErr detail hs hr 9 0 1 250 (by omega)
      (by omega) (by omega)]
    exact ⟨rfl, rfl⟩

/-- Witness for C2 at the concrete always-`Pending` environment. -/
theorem poll_pending_retry_exhaustion_witness :
    ((pollGo (fun _ => OrderStatus.Pending) (fun _ => none) "w" 0 1 250).checks ≤ 10
      ∧ ∀ st, (pollGo (fun _ => OrderStatus.Pending) (fun _ => none) "w" 0 1 250).result
          ≠ .ok st)
    ∧ ((pollGo (fun _ => OrderStatus.Pending) (fun _ => none) "w" 0 1 250).result
        = .error (.Fail "retry_too_many"
            ("order is not ready, detail url: " ++ "w"))
      ∧ (pollGo (fun _ => OrderStatus.Pending) (fun _ => none) "w" 0 1 250).checks = 9) :=
  ⟨(poll_pending_retry_exhaustion (fun _ => OrderStatus.Pending) "w"
      (fun _ => rfl)).1 (fun _ => none),
   (poll_pending_retry_exhaustion (fun _ => OrderStatus.Pending) "w"
      (fun _ => rfl)).2 (fun _ => none) (fun _ => rfl)⟩

/-- The names attempted by the sweep are exactly the targets whose renewal
decision is positive, independent of the outcomes of the renewal calls
themselves. -/
theorem sweep_names (getCert : String → Except AcmeError Certificate)
    (renewErr : String → List String → Option AcmeError) :
    ∀ params, (sweep getCert renewErr params).map Prod.fst
      = (params.filter fun p => should_renew getCert p.1 p.2).map Prod.fst := by
  intro params
  induction params with
  | nil => rfl
  | cons hd tl ih =>
      cases hd with
      | mk name domains =>
          by_cases h : should_renew getCert name domains = true
          · simp [sweep, h, List.filter_cons, ih]
          · simp only [Bool.not_eq_true] at h
            simp [sweep, h, List.filter_cons, ih]

/-- C3: on a qualifying tick the sweep returns `Ok(true)` whatever the
outcomes of the per-target certificate reads and renewals are (no target
error is propagated), and the sequence of attempted targets is exactly the
targets whose renewal decision is positive — in particular, any target
needing renewal is attempted no matter where it sits in the list and no
matter how the renewals or reads before it failed. -/
theorem sweep_isolates_target_failures
    (getCert : String → Except AcmeError Certificate)
    (renewErr : String → List String → Option AcmeError)
    (count : Nat) (params : List (String × List String))
    (hq : count % 10 = 0) :
    (do_update_certificates getCert renewErr count params).1 = .ok true
    ∧ (do_update_certificates getCert renewErr count params).2.map Prod.fst
        = (params.filter fun p => should_renew getCert p.1 p.2).map Prod.fst
    ∧ ∀ pre name domains rest, params = pre ++ (name, domains) :: rest →
        should_renew getCert name domains = true →
        name ∈ (do_update_certificates getCert renewErr count params).2.map Prod.fst := by
  refine ⟨by simp [do_update_certificates, hq], ?_, ?_⟩
  · simp only [do_update_certificates, hq]
    simp [sweep_names]
  · intro pre name domains rest hsplit hdec
    simp only [do_update_certificates, hq]
    simp only [sweep_names, ne_eq, not_true_eq_false, if_false, ite_false]
    have hmem : (name, domains) ∈ params := by
      rw [hsplit]
      exact List.mem_append_right _ (List.mem_cons_self _ _)
    have : (name, domains) ∈ params.filter fun p => should_renew getCert p.1 p.2 :=
      List.mem_filter.mpr ⟨hmem, hdec⟩
    simpa using List.mem_map_of_mem Prod.fst this

/-- Witness for C3: a two-target sweep in which the first target's
certificate read fails and its renewal fails, while the second target
still appears in the attempted list. -/
theorem sweep_isolates_target_failures_witness :
    (do_update_certificates (fun _ => .error (.NotFound "cert not found"))
        (fun name _ => if name = "a.com" then some (.Fail "order_invalid" "boom") else none)
        0 [("a.com", ["a.com"]), ("b.com", ["b.com"])]).1 = .ok true
    ∧ (do_update_certificates (fun _ => .error (.NotFound "cert not found"))
        (fun name _ => if name = "a.com" then some (.Fail "order_invalid" "boom") else none)
        0 [("a.com", ["a.com"]), ("b.com", ["b.com"])]).2.map Prod.fst
        = ([("a.com", ["a.com"]), ("b.com", ["b.com"])].filter fun p =>
            should_renew (fun _ => .error (.NotFound "cert not found")) p.1 p.2).map Prod.fst
    ∧ ∀ pre name domains rest,
        [("a.com", ["a.com"]), ("b.com", ["b.com"])] = pre ++ (name, domains) :: rest →
        should_renew (fun _ => .error (.NotFound "cert not found")) name domains = true →
        name ∈ (do_update_certificates (fun _ => .error (.NotFound "cert not found"))
          (fun name _ => if name = "a.com" then some (.Fail "order_invalid" "boom") else none)
          0 [("a.com", ["a.com"]), ("b.com", ["b.com"])]).2.map Prod.fst :=
  sweep_isolates_target_failures _ _ 0 _ rfl

/-- Equal sorts of permuted lists: the sorted image of a list depends only
on its multiset of elements. -/
theorem sortDomains_eq_of_perm {d1 d2 : List String} (h : d1.Perm d2) :
    sortDomains d1 = sortDomains d2 :=
  List.eq_of_perm_of_sorted
    ((List.perm_insertionSort _ d1).trans (h.trans (List.perm_insertionSort _ d2).symm))
    (List.sorted_insertionSort _ d1) (List.sorted_insertionSort _ d2)

/-- C6: for every pair of domain lists that are permutations of each
other, the domain-change check of the renewal decision evaluates to false,
and a certificate that passes its own validity check and embeds a
permutation of the configured list never triggers renewal. -/
theorem domain_reorder_never_triggers (d1 d2 : List String) (hperm : d1.Perm d2) :
    domainsChanged d1 d2 = false
    ∧ ∀ (getCert : String → Except AcmeError Certificate) (name : String)
        (c : Certificate), getCert name = .ok c → c.valid = true →
        c.domains = d2 → should_renew getCert name d1 = false := by
  have hsort : sortDomains d1 = sortDomains d2 := sortDomains_eq_of_perm hperm
  have hchanged : domainsChanged d1 d2 = false := by
    simp [domainsChanged, hsort]
  refine ⟨hchanged, fun getCert name c hok hval hdom => ?_⟩
  simp [should_renew, hok, hval, hdom, hchanged]

/-- Witness for C6 at a concrete reordered pair of domain lists. -/
theorem domain_reorder_never_triggers_witness :
    domainsChanged ["b.com", "a.com"] ["a.com", "b.com"] = false
    ∧ ∀ (getCert : String → Except AcmeError Certificate) (name : String)
        (c : Certificate), getCert name = .ok c → c.valid = true →
        c.domains = ["a.com", "b.com"] →
        should_renew getCert name ["b.com", "a.com"] = false :=
  domain_reorder_never_triggers ["b.com", "a.com"] ["a.com", "b.com"] (by decide)

/-- C7: a certificate that fails its own validity check forces the renewal
decision to true regardless of the domain comparison; a failed certificate
read (missing entry or parse error) also forces it to true; and the sweep
never propagates any of these failures — `do_update_certificates` always
returns `Ok`. -/
theorem renew_on_invalid_or_unreadable :
    (∀ (getCert : String → Except AcmeError Certificate) (name : String)
        (domains : List String) (c : Certificate),
        getCert name = .ok c → c.valid = false →
        should_renew getCert name domains = true)
    ∧ (∀ (getCert : String → Except AcmeError Certificate) (name : String)
        (domains : List String) (e : AcmeError),
        getCert name = .error e →
        should_renew getCert name domains = true)
    ∧ (∀ (getCert : String → Except AcmeError Certificate)
        (renewErr : String → List String → Option AcmeError)
        (count : Nat) (params : List (String × List String)),
        ∃ b : Bool, (do_update_certificates getCert renewErr count params).1 = .ok b) := by
  refine ⟨?_, ?_, ?_⟩
  · intro getCert name domains c hok hval
    simp [should_renew, hok, hval]
  · intro getCert name domains e herr
    simp [should_renew, herr]
  · intro getCert renewErr count params
    by_cases h : count % 10 = 0
    · exact ⟨true, by simp [do_update_certificates, h]⟩
    · exact ⟨false, by simp [do_update_certificates, h]⟩

/-- Witness for C7 at concrete read outcomes: an expired certificate, a
missing certificate, and a sweep whose only renewal fails. -/
theorem renew_on_invalid_or_unreadable_witness :
    should_renew (fun _ => .ok ⟨false, ["a.com"]⟩) "name" ["a.com"] = true
    ∧ should_renew (fun _ => .error (.NotFound "cert not found")) "name" ["a.com"] = true
    ∧ ∃ b : Bool, (do_update_certificates (fun _ => .error (.NotFound "cert not found"))
        (fun _ _ => some (.Fail "retry_too_many" "boom")) 0
        [("name", ["a.com"])]).1 = .ok b :=
  ⟨renew_on_invalid_or_unreadable.1 _ "name" ["a.com"] ⟨false, ["a.com"]⟩ rfl rfl,
   renew_on_invalid_or_unreadable.2.1 _ "name" ["a.com"] (.NotFound "cert not found") rfl,
   renew_on_invalid_or_unreadable.2.2 _ _ 0 [("name", ["a.com"])]⟩

/-- C5: case analysis of the challenge responder.  A request whose path is
the well-known head followed by a token answers 200 with exactly the
stored value and reports handled; a missing storage or a failed lookup
surfaces a 500 internal error (never a 404) with nothing handled; a path
not under the well-known head is declined with no storage lookup and no
response. -/
theorem handle_lets_encrypt_cases :
    (∀ (load : List Char → Except String String) (token : List Char)
        (value : String), load (get_token_path token) = .ok value →
        handle_lets_encrypt (some load) ( WELL_KNOWN_PATH_PREFIX ++ token)
          = ⟨.ok true, some (200, value), [get_token_path token]⟩)
    ∧ (∀ token : List Char,
        handle_lets_encrypt none ( WELL_KNOWN_PATH_PREFIX ++ token)
          = ⟨.error (500, "get config storage fail"), none, []⟩)
    ∧ (∀ (load : List Char → Except String String) (token : List Char)
        (e : String), load (get_token_path token) = .error e →
        handle_lets_encrypt (some load) ( WELL_KNOWN_PATH_PREFIX ++ token)
          = ⟨.error (500, e), none, [get_token_path token]⟩)
    ∧ (∀ (storage : Option (List Char → Except String String))
        (path : List Char), WELL_KNOWN_PATH_PREFIX.isPrefixOf path = false →
        handle_lets_encrypt storage path = ⟨.ok false, none, []⟩) := by
  have hpre : ∀ token : List Char,
      WELL_KNOWN_PATH_PREFIX.isPrefixOf ( WELL_KNOWN_PATH_PREFIX ++ token) = true := by
    intro token
    rw [List.isPrefixOf_iff_prefix]
    exact List.prefix_append _ _
  have hdrop : ∀ token : List Char,
      ( WELL_KNOWN_PATH_PREFIX ++ token).drop WELL_KNOWN_PATH_PREFIX.length
        = token := fun token => List.drop_left _ _
  refine ⟨?_, ?_, ?_, ?_⟩
  · intro load token value hok
    simp [handle_lets_encrypt, hpre token, hdrop token, hok]
  · intro token
    simp [handle_lets_encrypt, hpre token]
  · intro load token e herr
    simp [handle_lets_encrypt, hpre token, hdrop token, herr]
  · intro storage path hmiss
    simp [handle_lets_encrypt, hmiss]

/-- Witness for C5 at a concrete token, stored value, failing lookup and
declined path. -/
theorem handle_lets_encrypt_cases_witness :
    handle_lets_encrypt (some fun _ => .ok "xyz")
        ( WELL_KNOWN_PATH_PREFIX ++ "abc123".toList)
      = ⟨.ok true, some (200, "xyz"), [get_token_path "abc123".toList]⟩
    ∧ handle_lets_encrypt none ( WELL_KNOWN_PATH_PREFIX ++ "abc123".toList)
      = ⟨.error (500, "get config storage fail"), none, []⟩
    ∧ handle_lets_encrypt (some fun _ => .error "load fail")
        ( WELL_KNOWN_PATH_PREFIX ++ "abc123".toList)
      = ⟨.error (500, "load fail"), none, [get_token_path "abc123".toList]⟩
    ∧ handle_lets_encrypt none "/api/status".toList = ⟨.ok false, none, []⟩ :=
  ⟨handle_lets_encrypt_cases.1 (fun _ => .ok "xyz") "abc123".toList "xyz" rfl,
   handle_lets_encrypt_cases.2.1 "abc123".toList,
   handle_lets_encrypt_cases.2.2.1 (fun _ => .error "load fail") "abc123".toList
     "load fail" rfl,
   handle_lets_encrypt_cases.2.2.2 none "/api/status".toList (by decide)⟩

/-- C8: the category tag a failing configuration save receives in
`update_certificate_lets_encrypt` is the string "load_config" — the same
tag a failing configuration load receives — so the two distinct failing
steps are indistinguishable by category, contradicting the one-category-
per-step taxonomy.  Both branches are evaluated at concrete inputs. -/
theorem save_failure_shares_load_config_category :
    update_certificate_lets_encrypt
        { newCert := .ok ("PEM", "KEY"),
          loadResult := .ok { certificates := [("x", ⟨none, none, "entry"⟩)],
                              rest := "conf" },
          saveErr := some "disk full" } "x"
      = .error (.Fail "load_config" "disk full")
    ∧ update_certificate_lets_encrypt
        { newCert := .ok ("PEM", "KEY"),
          loadResult := .error "io error",
          saveErr := none } "x"
      = .error (.Fail "load_config" "io error") :=
  ⟨rfl, rfl⟩

/-- Helper for C10: mutating a name that no entry carries leaves the
certificate list unchanged. -/
theorem setCertificate_absent (certs : List (String × CertificateConf))
    (name pem key : String) (habs : ∀ e ∈ certs, ¬ e.1 = name) :
    setCertificate certs name pem key = certs := by
  induction certs with
  | nil => rfl
  | cons hd tl ih =>
      have hne : ¬ hd.1 = name := habs hd (List.mem_cons_self _ _)
      have htl := ih fun e he => habs e (List.mem_cons_of_mem _ he)
      simp only [setCertificate, List.map_cons, hne, if_false, ite_false]
      simpa [setCertificate] using htl

/-- C10: with a successful issuance, load and save, the update returns
`Ok` with exactly the loaded configuration whose certificate list has the
named entry rewritten and every other part untouched; when the loaded
configuration has no entry of that name, nothing at all is modified, no
entry is created, and the call still succeeds (the fresh material is
silently discarded); position by position, an entry of another name is
returned unchanged and only the named entry has its `tls_cert`/`tls_key`
fields replaced. -/
theorem update_certificate_only_named_entry (env : UpdateEnv)
    (name pem key : String) (conf : PingapConf)
    (hnew : env.newCert = .ok (pem, key))
    (hload : env.loadResult = .ok conf)
    (hsave : env.saveErr = none) :
    update_certificate_lets_encrypt env name
      = .ok { conf with
          certificates := setCertificate conf.certificates name pem key }
    ∧ ((∀ e ∈ conf.certificates, ¬ e.1 = name) →
        update_certificate_lets_encrypt env name = .ok conf)
    ∧ (∀ j : Nat, (setCertificate conf.certificates name pem key)[j]?
        = conf.certificates[j]?.map fun ent =>
            if ent.1 = name then
              (ent.1, { ent.2 with tls_cert := some pem, tls_key := some key })
            else ent) := by
  have hmain : update_certificate_lets_encrypt env name
      = .ok { conf with
          certificates := setCertificate conf.certificates name pem key } := by
    simp [update_certificate_lets_encrypt, hnew, hload, hsave]
  refine ⟨hmain, ?_, ?_⟩
  · intro habs
    rw [hmain, setCertificate_absent conf.certificates name pem key habs]
  · intro j
    simp [setCertificate]

/-- Witness for C10 at a concrete environment whose configuration has one
entry of another name. -/
theorem update_certificate_only_named_entry_witness :
    update_certificate_lets_encrypt
        { newCert := .ok ("PEM", "KEY"),
          loadResult := .ok { certificates := [("other", ⟨none, none, "e"⟩)],
                              rest := "conf" },
          saveErr := none } "name"
      = .ok { certificates :=
                setCertificate [("other", ⟨none, none, "e"⟩)] "name" "PEM" "KEY",
              rest := "conf" }
    ∧ ((∀ e ∈ ([("other", ⟨none, none, "e"⟩)] : List (String × CertificateConf)),
          ¬ e.1 = "name") →
        update_certificate_lets_encrypt
            { newCert := .ok ("PEM", "KEY"),
              loadResult := .ok { certificates := [("other", ⟨none, none, "e"⟩)],
                                  rest := "conf" },
              saveErr := none } "name"
          = .ok { certificates := [("other", ⟨none, none, "e"⟩)], rest := "conf" })
    ∧ (∀ j : Nat,
        (setCertificate [("other", ⟨none, none, "e"⟩)] "name" "PEM" "KEY")[j]?
          = ([("other", (⟨none, none, "e"⟩ : CertificateConf))][j]?).map fun ent =>
              if ent.1 = "name" then
                (ent.1, { ent.2 with tls_cert := some "PEM", tls_key := some "KEY" })
              else ent) :=
  update_certificate_only_named_entry
    { newCert := .ok ("PEM", "KEY"),
      loadResult := .ok { certificates := [("other", ⟨none, none, "e"⟩)],
                          rest := "conf" },
      saveErr := none } "name" "PEM" "KEY"
    { certificates := [("other", ⟨none, none, "e"⟩)], rest := "conf" }
    rfl rfl rfl

/-- Every event emitted by the authorization loop is a token save. -/
theorem authLoop_events_save (env : AcmeEnv) :
    ∀ l, ∀ e ∈ (authLoop env l).1, e.isSave = true := by
  intro l
  induction l with
  | nil => intro e he; simp [authLoop] at he
  | cons a rest ih =>
      intro e he
      cases hst : a.status
      case Pending =>
        cases hf : a.challenges.find? fun c => c.type == ChallengeType.Http01
        case none => simp [authLoop, hst, hf] at he
        case some challenge =>
          cases hsv : env.saveErr (get_token_path challenge.token.data)
          case some e2 => simp [authLoop, hst, hf, hsv] at he
          case none =>
            simp only [authLoop, hst, hf, hsv] at he
            rcases List.mem_cons.mp he with h | h
            · rw [h]; rfl
            · exact ih e h
      case Valid =>
        simp only [authLoop, hst] at he
        exact ih e he
      all_goals simp [authLoop, hst] at he

/-- Every event emitted by the readiness loop is a ready-signal. -/
theorem readyLoop_events_ready (env : AcmeEnv) :
    ∀ l, ∀ e ∈ (readyLoop env l).1, e.isReady = true := by
  intro l
  induction l with
  | nil => intro e he; simp [readyLoop] at he
  | cons ch rest ih =>
      intro e he
      cases hse : env.setReadyErr ch.2
      case some e2 => simp [readyLoop, hse] at he
      case none =>
        simp only [readyLoop, hse] at he
        rcases List.mem_cons.mp he with h | h
        · rw [h]; rfl
        · exact ih e h

/-- When the readiness loop finishes without error, it has emitted exactly
one ready-signal per recorded challenge, in order. -/
theorem readyLoop_complete (env : AcmeEnv) :
    ∀ l, (readyLoop env l).2 = none →
      (readyLoop env l).1 = l.map fun ch => AcmeEvent.setReady ch.2 := by
  intro l
  induction l with
  | nil => intro _; rfl
  | cons ch rest ih =>
      intro h
      cases hse : env.setReadyErr ch.2
      case some e2 => simp [readyLoop, hse] at h
      case none =>
        simp only [readyLoop, hse] at h ⊢
        rw [ih h]
        rfl

/-- C4: in every run of the orchestrated order, the event trace decomposes
as token saves, then ready-signals, then order-state inspections — so
every pending challenge token is saved to storage before any ready-signal
is issued, and the finalization polling starts only after the ready-signal
has been sent for every prepared challenge (when any polling happens at
all, the ready-signals are exactly one per recorded challenge). -/
theorem saves_then_readies_then_polls (env : AcmeEnv) :
    ∃ s r p, (new_lets_encrypt env).1 = s ++ r ++ p
      ∧ (∀ e ∈ s, e.isSave = true)
      ∧ (∀ e ∈ r, e.isReady = true)
      ∧ (∀ e ∈ p, e.isPoll = true)
      ∧ (p ≠ [] → ∃ challenges,
          (authLoop env env.authorizations).2 = .ok challenges
          ∧ r = challenges.map fun ch => AcmeEvent.setReady ch.2) := by
  cases hca : env.createAccountErr
  case some e =>
    exact ⟨[], [], [], by simp [new_lets_encrypt, hca], by simp, by simp,
      by simp, fun h => absurd rfl h⟩
  case none =>
  cases hno : env.newOrderErr
  case some e =>
    exact ⟨[], [], [], by simp [new_lets_encrypt, hca, hno], by simp, by simp,
      by simp, fun h => absurd rfl h⟩
  case none =>
  by_cases hinit : env.initialStatus = .Pending
  case neg =>
    exact ⟨[], [], [], by simp [new_lets_encrypt, hca, hno, hinit], by simp,
      by simp, by simp, fun h => absurd rfl h⟩
  case pos =>
  cases haz : env.authzErr
  case some e =>
    exact ⟨[], [], [], by simp [new_lets_encrypt, hca, hno, hinit, haz],
      by simp, by simp, by simp, fun h => absurd rfl h⟩
  case none =>
  by_cases hstor : env.storageAvailable = true
  case neg =>
    refine ⟨[], [], [], ?_, by simp, by simp, by simp, fun h => absurd rfl h⟩
    simp only [Bool.not_eq_true] at hstor
    simp [new_lets_encrypt, hca, hno, hinit, haz, hstor]
  case pos =>
  cases hprep : (authLoop env env.authorizations).2
  case err e =>
    refine ⟨(authLoop env env.authorizations).1, [], [], ?_,
      authLoop_events_save env env.authorizations, by simp, by simp,
      fun h => absurd rfl h⟩
    simp [new_lets_encrypt, hca, hno, hinit, haz, hstor, hprep]
  case todoPanic =>
    refine ⟨(authLoop env env.authorizations).1, [], [], ?_,
      authLoop_events_save env env.authorizations, by simp, by simp,
      fun h => absurd rfl h⟩
    simp [new_lets_encrypt, hca, hno, hinit, haz, hstor, hprep]
  case ok challenges =>
  cases hready : (readyLoop env challenges).2
  case some e =>
    refine ⟨(authLoop env env.authorizations).1, (readyLoop env challenges).1,
      [], ?_, authLoop_events_save env env.authorizations,
      readyLoop_events_ready env challenges, by simp, fun h => absurd rfl h⟩
    simp [new_lets_encrypt, hca, hno, hinit, haz, hstor, hprep, hready]
  case none =>
  refine ⟨(authLoop env env.authorizations).1, (readyLoop env challenges).1,
    List.replicate (pollGo env.status env.refreshErr "" 0 1 250).checks
      .statusCheck, ?_,
    authLoop_events_save env env.authorizations,
    readyLoop_events_ready env challenges, ?_, ?_⟩
  · cases hres : (pollGo env.status env.refreshErr "" 0 1 250).result
    case error e =>
      simp [new_lets_encrypt, hca, hno, hinit, haz, hstor, hprep, hready, hres]
    case ok st =>
      by_cases hinv : st = .Invalid
      · simp [new_lets_encrypt, hca, hno, hinit, haz, hstor, hprep, hready,
          hres, hinv]
      · simp [new_lets_encrypt, hca, hno, hinit, haz, hstor, hprep, hready,
          hres, hinv]
  · intro e he
    rw [List.eq_of_mem_replicate he]
    rfl
  · intro _
    exact ⟨challenges, rfl, readyLoop_complete env challenges hready⟩

/-- Witness for C4: the trace decomposition at a concrete run with one
pending and one already-valid authorization. -/
theorem saves_then_readies_then_polls_witness :
    ∃ s r p,
      (new_lets_encrypt (probeEnv [pendingAuth, ⟨.Valid, "c.example", []⟩])).1
        = s ++ r ++ p
      ∧ (∀ e ∈ s, e.isSave = true)
      ∧ (∀ e ∈ r, e.isReady = true)
      ∧ (∀ e ∈ p, e.isPoll = true)
      ∧ (p ≠ [] → ∃ challenges,
          (authLoop (probeEnv [pendingAuth, ⟨.Valid, "c.example", []⟩])
              (probeEnv [pendingAuth, ⟨.Valid, "c.example", []⟩]).authorizations).2
            = .ok challenges
          ∧ r = challenges.map fun ch => AcmeEvent.setReady ch.2) :=
  saves_then_readies_then_polls (probeEnv [pendingAuth, ⟨.Valid, "c.example", []⟩])

/-- C9: an authorization whose status is neither `Pending` nor `Valid`
sends the authorization loop — and with it the whole orchestration — into
the explicit `todo!()` panic branch rather than being skipped; the panic
of a single-authorization run is reachable exactly for such statuses; and
a `Valid` authorization is skipped without failing. -/
theorem authz_other_status_is_fatal :
    (∀ (env : AcmeEnv) (a : Authorization) (rest : List Authorization),
        ¬ a.status = .Pending → ¬ a.status = .Valid →
        authLoop env (a :: rest) = ([], .todoPanic))
    ∧ (∀ (env : AcmeEnv) (a : Authorization) (rest : List Authorization),
        a.status = .Valid → authLoop env (a :: rest) = authLoop env rest)
    ∧ (∀ (env : AcmeEnv) (a : Authorization),
        authLoop env [a] = ([], .todoPanic)
          ↔ (¬ a.status = .Pending ∧ ¬ a.status = .Valid))
    ∧ (∀ (env : AcmeEnv) (a : Authorization) (rest : List Authorization),
        env.createAccountErr = none → env.newOrderErr = none →
        env.initialStatus = .Pending → env.authzErr = none →
        env.storageAvailable = true → env.authorizations = a :: rest →
        ¬ a.status = .Pending → ¬ a.status = .Valid →
        new_lets_encrypt env = ([], .todoPanic)) := by
  have part1 : ∀ (env : AcmeEnv) (a : Authorization) (rest : List Authorization),
      ¬ a.status = .Pending → ¬ a.status = .Valid →
      authLoop env (a :: rest) = ([], .todoPanic) := by
    intro env a rest h1 h2
    cases hst : a.status
    case Pending => exact absurd hst h1
    case Valid => exact absurd hst h2
    all_goals simp [authLoop, hst]
  have part2 : ∀ (env : AcmeEnv) (a : Authorization) (rest : List Authorization),
      a.status = .Valid → authLoop env (a :: rest) = authLoop env rest := by
    intro env a rest h
    simp [authLoop, h]
  refine ⟨part1, part2, ?_, ?_⟩
  · intro env a
    constructor
    · intro heq
      cases hst : a.status
      case Pending =>
        exfalso
        cases hf : a.challenges.find? fun c => c.type == ChallengeType.Http01
        case none => simp [authLoop, hst, hf] at heq
        case some challenge =>
          cases hsv : env.saveErr (get_token_path challenge.token.data)
          case some e2 => simp [authLoop, hst, hf, hsv] at heq
          case none => simp [authLoop, hst, hf, hsv] at heq
      case Valid =>
        exfalso
        rw [part2 env a [] hst] at heq
        simp [authLoop] at heq
      all_goals simp [hst]
    · intro ⟨h1, h2⟩
      exact part1 env a [] h1 h2
  · intro env a rest hca hno hinit haz hstor hauth h1 h2
    have hpanic := part1 env a rest h1 h2
    simp [new_lets_encrypt, hca, hno, hinit, haz, hstor, hauth, hpanic]

/-- Witness for C9 at a concrete issuer-side-`Invalid` authorization and a
concrete otherwise-successful environment. -/
theorem authz_other_status_is_fatal_witness :
    authLoop (probeEnv [invalidAuth]) [invalidAuth] = ([], .todoPanic)
    ∧ authLoop (probeEnv [invalidAuth]) (⟨.Valid, "c.example", []⟩ :: [invalidAuth])
        = authLoop (probeEnv [invalidAuth]) [invalidAuth]
    ∧ (authLoop (probeEnv [invalidAuth]) [invalidAuth] = ([], .todoPanic)
        ↔ (¬ invalidAuth.status = .Pending ∧ ¬ invalidAuth.status = .Valid))
    ∧ new_lets_encrypt (probeEnv [invalidAuth]) = ([], .todoPanic) :=
  ⟨authz_other_status_is_fatal.1 (probeEnv [invalidAuth]) invalidAuth []
      (by decide) (by decide),
   authz_other_status_is_fatal.2.1 (probeEnv [invalidAuth])
      ⟨.Valid, "c.example", []⟩ [invalidAuth] rfl,
   authz_other_status_is_fatal.2.2.1 (probeEnv [invalidAuth]) invalidAuth,
   authz_other_status_is_fatal.2.2.2 (probeEnv [invalidAuth]) invalidAuth []
      rfl rfl rfl rfl rfl rfl (by decide) (by decide)⟩

end Pingap
